import Mathlib

/-!
Verification of the freeplay-plugin evaluation harness
(`evals/framework/verify.py` and `evals/framework/compare.py`)
against its natural-language specification.

The Python code is embedded shallowly: pure string/record manipulation
becomes Lean functions over `String`, `List Char` and association lists
(Python dicts with string keys are association lists with unique keys and
first-match lookup; `dict.get` with a falsy default is modelled with
`Option`).  Filesystem, subprocess and network effects are passed in as
explicit arguments (file existence, file content, process exit status,
captured streams, HTTP payloads), so every definition is executable.
-/

namespace Freeplay

/-! ## String helpers (models of Python `str` operations) -/

/-- Whether `p` occurs at the head of `s` (model of `str.startswith` used to
build the substring test). -/
def listStartsWith : List Char → List Char → Bool
  | [], _ => true
  | _ :: _, [] => false
  | p :: ps, c :: cs => p == c && listStartsWith ps cs

/-- Whether `pat` occurs contiguously anywhere in `s` (model of Python's
`pat in s` substring operator). -/
def listHasSub (pat : List Char) : List Char → Bool
  | [] => listStartsWith pat []
  | c :: cs => listStartsWith pat (c :: cs) || listHasSub pat cs

/-- Model of Python `pat in s` on strings. -/
def strContainsSub (s pat : String) : Bool :=
  listHasSub pat.data s.data

/-- Model of Python `str.lower()` (ASCII case folding, which is all the
source feeds it). -/
def lowerStr (s : String) : String :=
  ⟨s.data.map Char.toLower⟩

/-- Model of the Python slice `s[:n]` (by code points). -/
def pyStrTruncate (s : String) (n : Nat) : String :=
  ⟨s.data.take n⟩

/-! ## `check_code_runs` (verify.py 175-223), post-subprocess logic

The subprocess itself is an external effect; the embedding receives its
exit status and captured streams and reproduces lines 206-216.  The
timeout / generic-exception paths (218-221) replace the whole computation
and are outside the scope of the claims about the completed-run case. -/

/-- The fixed failure-indicator substrings of verify.py line 212. -/
def errorIndicators : List String := ["error", "exception", "traceback", "failed"]

structure CodeRunsOutcome where
  check : String
  command : String
  passed : Bool
  stdout : String
  stderr : String
  return_code : Int
  warning : Option String
deriving Repr, DecidableEq

/-- Embedding of `check_code_runs` for an invocation whose subprocess
completed: `returncode`, `out`, `err` are the process exit status and
captured streams. -/
def check_code_runs (command : String) (returncode : Int) (out err : String) :
    CodeRunsOutcome :=
  let stderr_lower := lowerStr err
  let has_suppressed_error := errorIndicators.any (fun e => strContainsSub stderr_lower e)
  { check := "code_runs"
    command := command
    stdout := pyStrTruncate out 2000
    stderr := pyStrTruncate err 2000
    return_code := returncode
    passed := returncode == 0 && !has_suppressed_error
    warning :=
      if has_suppressed_error && returncode == 0 then
        some "Exit code 0 but stderr contains error indicators"
      else none }

/-! ## `check_file_contains` (verify.py 146-172)

The filesystem is passed in as `file_exists` and `file_content`. -/

structure FileContainsOutcome where
  check : String
  file : String
  patterns : List String
  passed : Bool
  found : List String
  missing : List String
  error : Option String
deriving Repr, DecidableEq

/-- Embedding of `check_file_contains`. -/
def check_file_contains (file_exists : Bool) (file_content : String)
    (file_name : String) (patterns : List String) : FileContainsOutcome :=
  if !file_exists then
    { check := "file_contains", file := file_name, patterns := patterns
      passed := false, found := [], missing := []
      error := some ("File not found: " ++ file_name) }
  else
    let content := lowerStr file_content
    let found := patterns.filter (fun p => strContainsSub content (lowerStr p))
    let missing := patterns.filter (fun p => !strContainsSub content (lowerStr p))
    { check := "file_contains", file := file_name, patterns := patterns
      passed := missing.length == 0, found := found, missing := missing
      error := none }

/-! ## `check_api_verify` credential guard (verify.py 230-244)

Only the environment-dependent early-skip path is modelled; `none` means
control proceeds to the remote API calls (external effects).  The possible
Python values of the `passed` key are `True`, `False` and `None`, so the
field is an `Option Bool` (`none` models Python `None`). -/

structure ApiVerifyOutcome where
  check : String
  method : String
  passed : Option Bool
  skipped : Bool
  reason : Option String
deriving Repr, DecidableEq

/-- Python truthiness of `os.environ.get(...)`: `none` models an unset
variable, `some s` a set one; the empty string is falsy. -/
def truthyEnv : Option String → Bool
  | none => false
  | some s => !s.isEmpty

/-- Embedding of the credential guard at the top of `check_api_verify`:
returns `some outcome` when the check is skipped, `none` when execution
would continue to the remote API. -/
def check_api_verify_env (method : String) (api_key project_id : Option String) :
    Option ApiVerifyOutcome :=
  if !truthyEnv api_key || !truthyEnv project_id then
    some { check := "api_verify", method := method, passed := some false
           skipped := true
           reason := some "FREEPLAY_API_KEY or FREEPLAY_PROJECT_ID not set" }
  else none

/-! ## Timestamp reconciler (verify.py 102-131)

`datetime.strptime(s, "%Y-%m-%d %H:%M:%S")` is modelled after CPython's
`_strptime` regexes: `%Y` is exactly four digits, `%m`/`%d`/`%H`/`%M`/`%S`
are one or two digits in range (two-digit form preferred), the literal
separators must match, no input may remain, and the day must exist in the
month (the `datetime` constructor check). -/

structure PyDateTime where
  year : Nat
  month : Nat
  day : Nat
  hour : Nat
  minute : Nat
  second : Nat
deriving Repr, DecidableEq

/-- Numeric value of a decimal digit character. -/
def digitVal (c : Char) : Nat := c.toNat - 48

/-- Parse exactly `n` decimal digits. -/
def parseFixedDigits : Nat → List Char → Option (Nat × List Char)
  | 0, cs => some (0, cs)
  | _ + 1, [] => none
  | n + 1, c :: cs =>
    if c.isDigit then
      (parseFixedDigits n cs).map (fun p => (digitVal c * 10 ^ n + p.1, p.2))
    else none

/-- Parse a one- or two-digit field, preferring the two-digit form when it
satisfies `valid2`, falling back to one digit satisfying `valid1`. -/
def parseNum2or1 (valid2 valid1 : Nat → Bool) : List Char → Option (Nat × List Char)
  | a :: b :: rest =>
    if a.isDigit && b.isDigit && valid2 (digitVal a * 10 + digitVal b) then
      some (digitVal a * 10 + digitVal b, rest)
    else if a.isDigit && valid1 (digitVal a) then some (digitVal a, b :: rest)
    else none
  | [a] => if a.isDigit && valid1 (digitVal a) then some (digitVal a, []) else none
  | [] => none

/-- Consume one expected literal character. -/
def expectChar (c : Char) : List Char → Option (List Char)
  | x :: rest => if x == c then some rest else none
  | [] => none

def isLeapYear (y : Nat) : Bool :=
  (y % 4 == 0 && y % 100 != 0) || y % 400 == 0

def daysInMonth (y m : Nat) : Nat :=
  if m == 2 then (if isLeapYear y then 29 else 28)
  else if m == 4 || m == 6 || m == 9 || m == 11 then 30
  else 31

/-- Model of `datetime.strptime(s, "%Y-%m-%d %H:%M:%S")`: `some` on success,
`none` models the raised `ValueError`. -/
def strptimeYmdHms (s : String) : Option PyDateTime := do
  let (y, r) ← parseFixedDigits 4 s.data
  let r ← expectChar '-' r
  let (m, r) ← parseNum2or1 (fun v => 1 ≤ v && v ≤ 12) (fun v => 1 ≤ v && v ≤ 9) r
  let r ← expectChar '-' r
  let (d, r) ← parseNum2or1 (fun v => 1 ≤ v && v ≤ 31) (fun v => 1 ≤ v && v ≤ 9) r
  let r ← expectChar ' ' r
  let (h, r) ← parseNum2or1 (fun v => v ≤ 23) (fun _ => true) r
  let r ← expectChar ':' r
  let (mi, r) ← parseNum2or1 (fun v => v ≤ 59) (fun _ => true) r
  let r ← expectChar ':' r
  let (sec, r) ← parseNum2or1 (fun v => v ≤ 59) (fun _ => true) r
  if r.isEmpty && 1 ≤ y && 1 ≤ m && d ≤ daysInMonth y m then
    some ⟨y, m, d, h, mi, sec⟩
  else none

/-- Model of `str.replace(old, "")` for the single-character needle `old`. -/
def removeChar (old : Char) (s : String) : String :=
  ⟨s.data.filter (fun x => x != old)⟩

/-- Model of `str.replace(old, new)` for single characters. -/
def replaceChar (old new : Char) (s : String) : String :=
  ⟨s.data.map (fun x => if x == old then new else x)⟩

/-- Model of Python `c in s` for a single character. -/
def containsChar (s : String) (c : Char) : Bool :=
  s.data.any (fun x => x == c)

/-- Model of `s.split(c)[0]`: everything before the first occurrence of `c`. -/
def takeBeforeChar (s : String) (c : Char) : String :=
  ⟨s.data.takeWhile (fun x => x != c)⟩

def isPySpace (c : Char) : Bool :=
  c == ' ' || c == '\t' || c == '\n' || c == '\r' || c == '\x0b' || c == '\x0c'

/-- Model of `str.strip()`. -/
def pyStrip (s : String) : String :=
  ⟨((s.data.dropWhile isPySpace).reverse.dropWhile isPySpace).reverse⟩

/-- The normalization pipeline of `parse_completion_timestamp`
(verify.py 122-128): drop `Z`, turn `T` into a space, cut at the first `+`,
cut at the first `.`, strip. -/
def normalizeTs (ts : String) : String :=
  let c1 := replaceChar 'T' ' ' (removeChar 'Z' ts)
  let c2 := if containsChar c1 '+' then takeBeforeChar c1 '+' else c1
  let c3 := if containsChar c2 '.' then takeBeforeChar c2 '.' else c2
  pyStrip c3

/-- JSON-like values of a completion record, as far as the reconciler
inspects them. -/
inductive JVal where
  | s (v : String)
  | i (v : Int)
  | obj (fields : List (String × JVal))
  | null

/-- First-match association-list lookup: model of `dict.get` (dict keys are
unique, so first match is the match). -/
def slookup {α : Type} : List (String × α) → String → Option α
  | [], _ => none
  | (k, v) :: rest, key => if k == key then some v else slookup rest key

/-- The second source `completion.get("completion_metadata", {})`
(verify.py 114): `some fields` when the stored value is a mapping, or when
the key is absent (the `{}` default); `none` when a non-mapping value
(null, string, number) is stored — iterating fields over that value makes
the first `source.get(field)` raise an uncaught `AttributeError` in the
source. -/
def metaSource (c : List (String × JVal)) : Option (List (String × JVal)) :=
  match slookup c "completion_metadata" with
  | none => some []
  | some (.obj f) => some f
  | some _ => none

/-- The timestamp field names of verify.py line 117, in trial order. -/
def timestampFields : List String := ["start_time", "created_at", "timestamp", "end_time"]

/-- Inner loop of `parse_completion_timestamp`: first field of `fields`
present in `source` as a non-empty string that survives normalization and
strict parsing. -/
def firstParsedField (source : List (String × JVal)) : List String → Option PyDateTime
  | [] => none
  | f :: fs =>
    match slookup source f with
    | some (.s ts) =>
      if ts == "" then firstParsedField source fs
      else
        match strptimeYmdHms (normalizeTs ts) with
        | some dt => some dt
        | none => firstParsedField source fs
    | _ => firstParsedField source fs

/-- Embedding of `parse_completion_timestamp` (verify.py 111-131): the
record itself is tried first, then its `completion_metadata`.  `.error ()`
models the uncaught `AttributeError` raised when the stored
`completion_metadata` is not a mapping and the first-source fields all
failed; it escapes to `check_api_verify`'s generic handler (292-293), so
no timestamp — and no normal outcome — is produced. -/
def parse_completion_timestamp (c : List (String × JVal)) :
    Except Unit (Option PyDateTime) :=
  match firstParsedField c timestampFields with
  | some dt => .ok (some dt)
  | none =>
    match metaSource c with
    | none => .error ()
    | some mf => .ok (firstParsedField mf timestampFields)

/-- Model of `datetime` comparison `a <= b` (field-lexicographic, which is
chronological order for in-range dates). -/
def dtLe (a b : PyDateTime) : Bool :=
  if a.year != b.year then decide (a.year < b.year)
  else if a.month != b.month then decide (a.month < b.month)
  else if a.day != b.day then decide (a.day < b.day)
  else if a.hour != b.hour then decide (a.hour < b.hour)
  else if a.minute != b.minute then decide (a.minute < b.minute)
  else decide (a.second ≤ b.second)

/-! ## `verify_completion_logged` (verify.py 298-328)

The HTTP round-trip is an external effect: the embedding receives the
response status code and the returned completion list.  The `none` result
of `verify_completion_logged` models an escaped exception — the
`ValueError` raised when the window timestamp does not parse, or the
`AttributeError` raised during reconciliation — both caught further up in
`check_api_verify` as an error outcome carrying no `completion_count`. -/

/-- The client-side reconciliation loop (verify.py 311-315): a record is
kept iff its parsed timestamp exists and is ≥ the window start; `.error`
when some record raises during parsing, which aborts the loop and escapes
`verify_completion_logged`. -/
def recentCompletions (filter_time : PyDateTime) :
    List (List (String × JVal)) → Except Unit (List (List (String × JVal)))
  | [] => .ok []
  | c :: cs =>
    match parse_completion_timestamp c with
    | .error e => .error e
    | .ok ctime =>
      match recentCompletions filter_time cs with
      | .error e => .error e
      | .ok rest =>
        .ok (match ctime with
             | some t => if dtLe filter_time t then c :: rest else rest
             | none => rest)

structure CompletionLoggedOutcome where
  api_reachable : Bool
  status_code : Int
  completion_count : Nat
  total_returned : Nat
  since : String
  passed : Bool
deriving Repr, DecidableEq

/-- Embedding of `verify_completion_logged`, parameterized by the server
response (`status_code`, `all_completions`). -/
def verify_completion_logged (timestamp_str : String) (status_code : Int)
    (all_completions : List (List (String × JVal))) : Option CompletionLoggedOutcome :=
  match strptimeYmdHms timestamp_str with
  | none => none
  | some filter_time =>
    match recentCompletions filter_time all_completions with
    | .error _ => none
    | .ok recent =>
      let completion_count :=
        if !recent.isEmpty || all_completions.isEmpty then recent.length else 0
      some { api_reachable := true
             status_code := status_code
             completion_count := completion_count
             total_returned := all_completions.length
             since := timestamp_str
             passed := decide (completion_count > 0) }

/-! ## Scoring aggregator `calculate_score` (verify.py 627-681) -/

/-- The fields of a check-outcome dict that `calculate_score` reads.
`check.get("passed", False)` and `check.get("skipped")` are booleans on
every outcome the executors produce, `check.get("reason")` may be absent. -/
structure CheckRecord where
  check : String
  method : String
  passed : Bool
  skipped : Bool
  reason : Option String
deriving Repr, DecidableEq

/-- One entry of the computed `categories` mapping.  `passed := none`
models Python `None`; on non-skipped entries the source dict carries no
`skipped`/`reason` keys, modelled as `false`/`none`. -/
structure CategoryScore where
  passed : Option Bool
  skipped : Bool
  reason : Option String
  points : Int
  max_points : Int
deriving Repr, DecidableEq

/-- The fixed `check_to_category` lookup table (verify.py 633-644), keyed
by `(check_type, method if check_type == "api_verify" else "")`. -/
def check_to_category (check_type method : String) : Option String :=
  let m := if check_type == "api_verify" then method else ""
  if check_type == "file_contains" && m == "" then some "code_modified"
  else if check_type == "code_runs" && m == "" then some "code_runs"
  else if check_type == "api_verify" && m == "search_completions" then some "completion_logged"
  else if check_type == "api_verify" && m == "check_prompt_exists" then some "prompt_created"
  else if check_type == "api_verify" && m == "check_completion_has_prompt" then some "completion_has_prompt"
  else if check_type == "api_verify" && m == "check_prompt_has_variable" then some "prompt_has_variable"
  else if check_type == "api_verify" && m == "check_dataset_exists" then some "dataset_created"
  else if check_type == "api_verify" && m == "check_dataset_has_test_cases" then some "test_cases_added"
  else if check_type == "api_verify" && m == "check_test_run_exists" then some "test_run_created"
  else if check_type == "api_verify" && m == "check_test_run_has_sessions" then some "test_run_executed"
  else none

/-- The scenario's scoring rubric: category name to point value (the
`scoring[category]["points"]` integer). -/
def Rubric : Type := List (String × Int)

/-- Model of `scores[category] = value` on a Python dict: replace in place
if the key exists, else append. -/
def dictInsert {α : Type} (k : String) (v : α) : List (String × α) → List (String × α)
  | [] => [(k, v)]
  | (k', v') :: rest => if k' == k then (k, v) :: rest else (k', v') :: dictInsert k v rest

/-- The category entry built for one scored check (verify.py 657-671). -/
def categoryEntry (check : CheckRecord) (max_points : Int) : CategoryScore :=
  if check.skipped then
    { passed := none, skipped := true, reason := check.reason
      points := 0, max_points := max_points }
  else
    { passed := some check.passed, skipped := false, reason := none
      points := if check.passed then max_points else 0, max_points := max_points }

/-- One iteration of the scoring loop (verify.py 646-671): checks whose
identity has no table entry, or whose category is absent from the rubric,
leave the accumulating dict untouched. -/
def applyCheck (scoring : Rubric) (scores : List (String × CategoryScore))
    (check : CheckRecord) : List (String × CategoryScore) :=
  match check_to_category check.check check.method with
  | none => scores
  | some category =>
    match slookup scoring category with
    | none => scores
    | some max_points => dictInsert category (categoryEntry check max_points) scores

/-- The `scores` dict after the whole loop. -/
def scoreCategories (scoring : Rubric) (checks : List CheckRecord) :
    List (String × CategoryScore) :=
  checks.foldl (applyCheck scoring) []

/-- Round-half-to-even to an integer (the tie-breaking rule of Python's
`round`). -/
def roundHalfEven (q : Rat) : Int :=
  let f := q.floor
  if q - f < 1 / 2 then f
  else if q - f > 1 / 2 then f + 1
  else if f % 2 == 0 then f else f + 1

/-- Model of Python `round(x, 1)` on exact rationals. -/
def pyRound1 (x : Rat) : Rat :=
  (roundHalfEven (10 * x) : Rat) / 10

structure ScoreResult where
  categories : List (String × CategoryScore)
  total : Int
  max_total : Int
  percentage : Rat
deriving Repr, DecidableEq

/-- Embedding of `calculate_score` (verify.py 627-681). -/
def calculate_score (scoring : Rubric) (checks : List CheckRecord) : ScoreResult :=
  let scores := scoreCategories scoring checks
  let total := (scores.map (fun e => e.2.points)).sum
  let max_total := (scores.map (fun e => e.2.max_points)).sum
  { categories := scores
    total := total
    max_total := max_total
    percentage :=
      if max_total > 0 then pyRound1 ((total : Rat) / (max_total : Rat) * 100) else 0 }

/-- A check that actually reaches the scoring dict: its identity has a
table entry and that category is in the rubric. -/
def isScoredCheck (scoring : Rubric) (c : CheckRecord) : Bool :=
  match check_to_category c.check c.method with
  | none => false
  | some cat => (slookup scoring cat).isSome

/-! ## Comparator `compare_results` (compare.py 38-74)

The category loop of `compare_results`, over the union of the two scored
category sets.  Python iterates a `set` (unordered); the embedding fixes
the deterministic order "baseline keys, then new plugin keys", which the
claims (about membership, not order) do not depend on. -/

/-- An entry of the `improvements` or `regressions` list. -/
structure DeltaEntry where
  category : String
  baseline : Int
  with_plugin : Int
  delta : Int
deriving Repr, DecidableEq

/-- An entry of the `unchanged` list: either the both-skipped form
(`status: "skipped"` with the plugin side's reason) or the plain form with
a status string and the baseline's points. -/
inductive UnchangedEntry where
  | skippedCat (category : String) (reason : Option String)
  | statusCat (category : String) (status : String) (points : Int)
deriving Repr, DecidableEq

structure Comparison where
  improvements : List DeltaEntry
  regressions : List DeltaEntry
  unchanged : List UnchangedEntry
deriving Repr, DecidableEq

/-- The default `{"passed": False, "points": 0}` used for a category absent
from one side (compare.py 45-46). -/
def defaultCatData : CategoryScore :=
  { passed := some false, skipped := false, reason := none, points := 0, max_points := 0 }

/-- Python truthiness of the `passed` value: only `True` is truthy
(`False` and `None` are falsy). -/
def truthyPassed : Option Bool → Bool
  | some true => true
  | _ => false

/-- Model of `cats.get(category, default)`. -/
def catGet (cats : List (String × CategoryScore)) (k : String) : CategoryScore :=
  (slookup cats k).getD defaultCatData

/-- Keep the first occurrence of each key. -/
def dedupFirst : List String → List String
  | [] => []
  | x :: xs => x :: (dedupFirst xs).filter (fun y => y != x)

/-- The union of the two category-key sets, baseline keys first. -/
def unionCategories (bcats pcats : List (String × CategoryScore)) : List String :=
  dedupFirst (bcats.map Prod.fst ++ pcats.map Prod.fst)

/-- Which list one category belongs to, mirroring the if/elif chain of
compare.py 49-74 exactly. -/
inductive CatCompare where
  | bothSkipped (reason : Option String)
  | improvement (baseline with_plugin delta : Int)
  | regression (baseline with_plugin delta : Int)
  | same (status : String) (points : Int)
deriving Repr, DecidableEq

/-- The classification of one category (compare.py 49-74). -/
def classifyCategory (base_data plugin_data : CategoryScore) : CatCompare :=
  if base_data.skipped && plugin_data.skipped then
    .bothSkipped plugin_data.reason
  else if !truthyPassed base_data.passed && truthyPassed plugin_data.passed then
    .improvement base_data.points plugin_data.points (plugin_data.points - base_data.points)
  else if truthyPassed base_data.passed && !truthyPassed plugin_data.passed then
    .regression base_data.points plugin_data.points (plugin_data.points - base_data.points)
  else
    .same (if truthyPassed base_data.passed then "passed" else "failed") base_data.points

/-- Embedding of the category loop of `compare_results`: each category of
the union is appended to exactly the list its classification selects. -/
def compare_results (bcats pcats : List (String × CategoryScore)) : Comparison :=
  let cats := unionCategories bcats pcats
  { improvements := cats.filterMap (fun c =>
      match classifyCategory (catGet bcats c) (catGet pcats c) with
      | .improvement b p d => some ⟨c, b, p, d⟩
      | _ => none)
    regressions := cats.filterMap (fun c =>
      match classifyCategory (catGet bcats c) (catGet pcats c) with
      | .regression b p d => some ⟨c, b, p, d⟩
      | _ => none)
    unchanged := cats.filterMap (fun c =>
      match classifyCategory (catGet bcats c) (catGet pcats c) with
      | .bothSkipped r => some (.skippedCat c r)
      | .same st pts => some (.statusCat c st pts)
      | _ => none) }

/-! ## Helper lemmas -/

theorem listStartsWith_map (f : Char → Char) :
    ∀ (p s : List Char), listStartsWith p s = true →
      listStartsWith (p.map f) (s.map f) = true := by
  intro p
  induction p with
  | nil => intro s _; rfl
  | cons c cs ih =>
    intro s h
    cases s with
    | nil => simp [listStartsWith] at h
    | cons d ds =>
      simp only [List.map_cons, listStartsWith, Bool.and_eq_true, beq_iff_eq] at h ⊢
      exact ⟨by rw [h.1], ih ds h.2⟩

theorem listHasSub_map (f : Char → Char) :
    ∀ (p s : List Char), listHasSub p s = true →
      listHasSub (p.map f) (s.map f) = true := by
  intro p s
  induction s with
  | nil =>
    intro h
    cases p with
    | nil => rfl
    | cons c cs => simp [listHasSub, listStartsWith] at h
  | cons c cs ih =>
    intro h
    simp only [listHasSub, Bool.or_eq_true, List.map_cons] at h ⊢
    rcases h with h | h
    · exact Or.inl (listStartsWith_map f _ _ h)
    · exact Or.inr (ih h)

theorem strContainsSub_lower_exception {err : String}
    (h : strContainsSub err "Exception" = true) :
    strContainsSub (lowerStr err) "exception" = true := by
  have h2 := listHasSub_map Char.toLower "Exception".data err.data h
  have h3 : "Exception".data.map Char.toLower = "exception".data := by decide
  unfold strContainsSub lowerStr
  rw [← h3]
  exact h2

/-! ## C9: `file_contains` with an empty pattern list -/

/-- C9: for every existing, readable file, the file-contains check invoked
with an empty patterns list returns `passed = true` — the missing list is
empty, so the universally-quantified substring condition holds vacuously. -/
theorem C9_file_contains_empty_patterns (content file_name : String) :
    (check_file_contains true content file_name []).passed = true := rfl

/-! ## C2: the `code_runs` stderr heuristic -/

/-- C2: for a completed `code_runs` subprocess, `passed = true` iff the exit
status is zero and the lower-cased stderr contains none of the four
failure-indicator substrings; in particular exit status zero with a stderr
containing the word "Exception" yields `passed = false` with the warning
field set. -/
theorem C2_code_runs_heuristic (command : String) (returncode : Int) (out err : String) :
    ((check_code_runs command returncode out err).passed = true ↔
      (returncode = 0 ∧ ∀ e ∈ errorIndicators, strContainsSub (lowerStr err) e = false)) ∧
    (returncode = 0 → strContainsSub err "Exception" = true →
      (check_code_runs command returncode out err).passed = false ∧
      ((check_code_runs command returncode out err).warning).isSome = true) := by
  have hp : (check_code_runs command returncode out err).passed =
      (returncode == 0 && !(errorIndicators.any (fun e => strContainsSub (lowerStr err) e))) := rfl
  have hw : (check_code_runs command returncode out err).warning =
      (if (errorIndicators.any (fun e => strContainsSub (lowerStr err) e)) && returncode == 0 then
        some "Exit code 0 but stderr contains error indicators" else none) := rfl
  constructor
  · rw [hp]
    simp only [Bool.and_eq_true, beq_iff_eq, Bool.not_eq_true']
    constructor
    · rintro ⟨h0, hany⟩
      refine ⟨h0, fun e he => ?_⟩
      by_contra hne
      have : errorIndicators.any (fun e => strContainsSub (lowerStr err) e) = true :=
        List.any_eq_true.mpr ⟨e, he, by revert hne; cases strContainsSub (lowerStr err) e <;> simp⟩
      rw [this] at hany
      exact Bool.true_eq_false.mp hany
    · rintro ⟨h0, hall⟩
      refine ⟨h0, ?_⟩
      by_contra hne
      have : errorIndicators.any (fun e => strContainsSub (lowerStr err) e) = true := by
        revert hne; cases errorIndicators.any (fun e => strContainsSub (lowerStr err) e) <;> simp
      rcases List.any_eq_true.mp this with ⟨e, he, hce⟩
      rw [hall e he] at hce
      exact Bool.false_eq_true.mp hce
  · intro h0 hsub
    have hex : strContainsSub (lowerStr err) "exception" = true :=
      strContainsSub_lower_exception hsub
    have hany : errorIndicators.any (fun e => strContainsSub (lowerStr err) e) = true :=
      List.any_eq_true.mpr ⟨"exception", by simp [errorIndicators], hex⟩
    constructor
    · rw [hp, h0, hany]; rfl
    · rw [hw, h0, hany]; rfl

/-- Witness for C2 at a concrete completed run: exit status 0 with stderr
"Exception: boom" fails with the warning set, and a clean run passes. -/
theorem C2_code_runs_heuristic_witness :
    ((check_code_runs "python main.py" 0 "" "Exception: boom").passed = false ∧
      ((check_code_runs "python main.py" 0 "" "Exception: boom").warning).isSome = true) ∧
    (check_code_runs "python main.py" 0 "ok" "").passed = true :=
  ⟨(C2_code_runs_heuristic "python main.py" 0 "" "Exception: boom").2 rfl (by decide),
   (C2_code_runs_heuristic "python main.py" 0 "ok" "").1.mpr ⟨rfl, by decide⟩⟩

/-! ## Scoring invariants shared by several claims -/

/-- The shape every entry of the computed categories mapping has: a skipped
entry carries `passed = none` and zero points; a non-skipped entry is
awarded the full point value iff it passed, never a partial amount. -/
def goodEntry (e : CategoryScore) : Prop :=
  (e.skipped = true → e.passed = none ∧ e.points = 0) ∧
  (e.skipped = false → ∃ b, e.passed = some b ∧ e.points = (if b then e.max_points else 0))

theorem goodEntry_categoryEntry (c : CheckRecord) (pts : Int) :
    goodEntry (categoryEntry c pts) := by
  unfold goodEntry categoryEntry
  by_cases h : c.skipped <;> simp [h]

theorem slookup_cons {α : Type} (k0 : String) (v0 : α) (tl : List (String × α)) (key : String) :
    slookup ((k0, v0) :: tl) key = if k0 = key then some v0 else slookup tl key := by
  simp only [slookup]
  by_cases h : k0 = key
  · simp [h]
  · simp [h]

theorem dictInsert_cons {α : Type} (k : String) (v : α) (k0 : String) (v0 : α)
    (tl : List (String × α)) :
    dictInsert k v ((k0, v0) :: tl) =
      if k0 = k then (k, v) :: tl else (k0, v0) :: dictInsert k v tl := by
  simp only [dictInsert]
  by_cases h : k0 = k
  · simp [h]
  · simp [h]

theorem slookup_dictInsert_cases {α : Type} {k key : String} {v e : α} :
    ∀ {l : List (String × α)}, slookup (dictInsert k v l) key = some e →
      e = v ∨ slookup l key = some e := by
  intro l
  induction l with
  | nil =>
    intro h
    rw [show dictInsert k v ([] : List (String × α)) = [(k, v)] from rfl, slookup_cons] at h
    by_cases hk : k = key
    · rw [if_pos hk] at h
      exact Or.inl (Option.some.inj h).symm
    · rw [if_neg hk] at h
      simp [slookup] at h
  | cons hd tl ih =>
    obtain ⟨k0, v0⟩ := hd
    intro h
    rw [dictInsert_cons] at h
    by_cases h0 : k0 = k
    · rw [if_pos h0, slookup_cons] at h
      by_cases hk : k = key
      · rw [if_pos hk] at h
        exact Or.inl (Option.some.inj h).symm
      · rw [if_neg hk] at h
        refine Or.inr ?_
        rw [slookup_cons, if_neg (by rw [h0]; exact hk)]
        exact h
    · rw [if_neg h0, slookup_cons] at h
      by_cases hk0 : k0 = key
      · rw [if_pos hk0] at h
        exact Or.inr (by rw [slookup_cons, if_pos hk0]; exact h)
      · rw [if_neg hk0] at h
        rcases ih h with h' | h'
        · exact Or.inl h'
        · exact Or.inr (by rw [slookup_cons, if_neg hk0]; exact h')

theorem scoreFold_goodEntry (scoring : Rubric) :
    ∀ (checks : List CheckRecord) (acc : List (String × CategoryScore)),
      (∀ k e, slookup acc k = some e → goodEntry e) →
      ∀ k e, slookup (checks.foldl (applyCheck scoring) acc) k = some e → goodEntry e := by
  intro checks
  induction checks with
  | nil => intro acc hacc; simpa using hacc
  | cons c cs ih =>
    intro acc hacc k e h
    refine ih (applyCheck scoring acc c) ?_ k e h
    intro k' e' h'
    unfold applyCheck at h'
    split at h'
    · exact hacc k' e' h'
    · split at h'
      · exact hacc k' e' h'
      · rcases slookup_dictInsert_cases h' with h'' | h''
        · rw [h'']; exact goodEntry_categoryEntry _ _
        · exact hacc k' e' h''

theorem calculate_score_goodEntry (scoring : Rubric) (checks : List CheckRecord) :
    ∀ k e, slookup (calculate_score scoring checks).categories k = some e → goodEntry e := by
  intro k e h
  have hcats : (calculate_score scoring checks).categories = scoreCategories scoring checks := rfl
  rw [hcats] at h
  exact scoreFold_goodEntry scoring checks [] (by intro k' e' h'; simp [slookup] at h') k e h

/-! ## C5: percentage formula and the `max_total = 0` case -/

/-- C5: the computed percentage is `round(total / max_total * 100, 1)`
whenever `max_total > 0`, and exactly `0` whenever `max_total = 0` — the
division is never evaluated in the latter case. -/
theorem C5_percentage (scoring : Rubric) (checks : List CheckRecord) :
    ((calculate_score scoring checks).max_total = 0 →
      (calculate_score scoring checks).percentage = 0) ∧
    ((calculate_score scoring checks).max_total > 0 →
      (calculate_score scoring checks).percentage =
        pyRound1 (((calculate_score scoring checks).total : Rat) /
          ((calculate_score scoring checks).max_total : Rat) * 100)) := by
  have hperc : (calculate_score scoring checks).percentage =
      (if (calculate_score scoring checks).max_total > 0 then
        pyRound1 (((calculate_score scoring checks).total : Rat) /
          ((calculate_score scoring checks).max_total : Rat) * 100)
      else 0) := rfl
  constructor
  · intro h
    rw [hperc, if_neg (by omega)]
  · intro h
    rw [hperc, if_pos h]

/-- Witness for C5: an empty rubric yields percentage 0 without a division
fault, and a 10-point rubric with one passed check yields the rounded
formula value. -/
theorem C5_percentage_witness :
    (calculate_score [] []).percentage = 0 ∧
    (calculate_score [("code_runs", (10 : Int))]
        [⟨"code_runs", "", true, false, none⟩]).percentage =
      pyRound1 (((calculate_score [("code_runs", (10 : Int))]
          [⟨"code_runs", "", true, false, none⟩]).total : Rat) /
        ((calculate_score [("code_runs", (10 : Int))]
          [⟨"code_runs", "", true, false, none⟩]).max_total : Rat) * 100) :=
  ⟨(C5_percentage [] []).1 rfl,
   (C5_percentage [("code_runs", (10 : Int))] [⟨"code_runs", "", true, false, none⟩]).2
     (by decide)⟩

/-! ## C4: the api_verify skip path -/

/-- C4 counterexample: with both credentials unset, the outcome returned by
the credential guard has `skipped = true` but its `passed` field is the
Python value `False` (`some false`), not the distinguished unknown value
`None` (`none`) the claim asserts. -/
theorem C4_counterexample :
    check_api_verify_env "search_completions" none none =
      some { check := "api_verify", method := "search_completions"
             passed := some false, skipped := true
             reason := some "FREEPLAY_API_KEY or FREEPLAY_PROJECT_ID not set" } ∧
    (check_api_verify_env "search_completions" none none).map ApiVerifyOutcome.passed ≠
      some none := by
  exact ⟨rfl, by decide⟩

/-- C4 amended: with the API key or project id unset or empty, the check
outcome has `skipped = true` with the fixed reason, while its `passed`
field stays `False`; the unknown tri-state value (`None`) appears only in
the category entry the scoring aggregator derives from a skipped outcome,
which always carries zero points, so the skip counts neither as failure
nor as success in the score. -/
theorem C4_skip_amended (method : String) (api_key project_id : Option String)
    (h : truthyEnv api_key = false ∨ truthyEnv project_id = false) :
    check_api_verify_env method api_key project_id =
      some { check := "api_verify", method := method, passed := some false
             skipped := true
             reason := some "FREEPLAY_API_KEY or FREEPLAY_PROJECT_ID not set" } ∧
    (∀ (scoring : Rubric) (checks : List CheckRecord) (cat : String) (e : CategoryScore),
      slookup (calculate_score scoring checks).categories cat = some e →
      e.skipped = true → e.passed = none ∧ e.points = 0) := by
  constructor
  · unfold check_api_verify_env
    have hc : (!truthyEnv api_key || !truthyEnv project_id) = true := by
      rcases h with h | h <;> simp [h]
    rw [hc]
    rfl
  · intro scoring checks cat e he hsk
    exact (calculate_score_goodEntry scoring checks cat e he).1 hsk

/-- Witness for C4 amended at concrete inputs: unset credentials produce the
skip outcome with `passed = False`, and scoring a skipped api_verify check
records `passed = None` with zero points. -/
theorem C4_skip_amended_witness :
    check_api_verify_env "search_completions" none none =
      some { check := "api_verify", method := "search_completions"
             passed := some false, skipped := true
             reason := some "FREEPLAY_API_KEY or FREEPLAY_PROJECT_ID not set" } ∧
    ((⟨none, true, some "creds", 0, 10⟩ : CategoryScore).passed = none ∧
      (⟨none, true, some "creds", (0 : Int), 10⟩ : CategoryScore).points = 0) := by
  have h := C4_skip_amended "search_completions" none none (Or.inl rfl)
  refine ⟨h.1, ?_⟩
  exact h.2 [("completion_logged", (10 : Int))]
    [⟨"api_verify", "search_completions", false, true, some "creds"⟩]
    "completion_logged" ⟨none, true, some "creds", 0, 10⟩ rfl rfl

/-! ## C7: timestamp normalization round-trip -/

theorem parse_completion_timestamp_start_time (c : List (String × JVal)) (ts : String)
    (dt : PyDateTime) (hlk : slookup c "start_time" = some (.s ts))
    (hne : (ts == "") = false)
    (hparse : strptimeYmdHms (normalizeTs ts) = some dt) :
    parse_completion_timestamp c = .ok (some dt) := by
  have hfirst : firstParsedField c timestampFields = some dt := by
    unfold timestampFields
    simp only [firstParsedField]
    rw [hlk]
    simp only [hne, Bool.false_eq_true, if_false, hparse]
  unfold parse_completion_timestamp
  rw [hfirst]

/-- C7: a record whose `start_time` field holds
`"2024-01-15T10:30:00.123456+00:00"` reconciles to exactly the same parsed
instant as one whose `start_time` holds `"2024-01-15 10:30:00"` — the
normalization pipeline strips the `T`, the fractional seconds and the zone
offset before the strict parse. -/
theorem C7_timestamp_roundtrip (c1 c2 : List (String × JVal))
    (h1 : slookup c1 "start_time" = some (.s "2024-01-15T10:30:00.123456+00:00"))
    (h2 : slookup c2 "start_time" = some (.s "2024-01-15 10:30:00")) :
    parse_completion_timestamp c1 = parse_completion_timestamp c2 ∧
    parse_completion_timestamp c1 = .ok (some ⟨2024, 1, 15, 10, 30, 0⟩) := by
  have e1 : parse_completion_timestamp c1 = .ok (some ⟨2024, 1, 15, 10, 30, 0⟩) :=
    parse_completion_timestamp_start_time c1 _ _ h1 rfl (by decide)
  have e2 : parse_completion_timestamp c2 = .ok (some ⟨2024, 1, 15, 10, 30, 0⟩) :=
    parse_completion_timestamp_start_time c2 _ _ h2 rfl (by decide)
  exact ⟨e1.trans e2.symm, e1⟩

/-- Witness for C7 at two concrete one-field records. -/
theorem C7_timestamp_roundtrip_witness :
    parse_completion_timestamp [("start_time", .s "2024-01-15T10:30:00.123456+00:00")] =
      parse_completion_timestamp [("start_time", .s "2024-01-15 10:30:00")] ∧
    parse_completion_timestamp [("start_time", .s "2024-01-15T10:30:00.123456+00:00")] =
      .ok (some ⟨2024, 1, 15, 10, 30, 0⟩) :=
  C7_timestamp_roundtrip _ _ rfl rfl

/-! ## C8: completion count equals the reconciled in-window count -/

/-- C8: whenever the search_completions verification completes and reports
an outcome — a record raising `AttributeError` during reconciliation, or
an unparseable window timestamp, escapes instead as an error outcome with
no `completion_count` — the reported `completion_count` equals the length
of the client-side reconciled in-window list: the conditional guarding an
empty server result is equivalent to the plain count, and `passed` is true
iff that count is positive. -/
theorem C8_completion_count (timestamp_str : String) (status_code : Int)
    (all_completions : List (List (String × JVal))) (o : CompletionLoggedOutcome)
    (ho : verify_completion_logged timestamp_str status_code all_completions = some o) :
    ∃ filter_time recent,
      strptimeYmdHms timestamp_str = some filter_time ∧
      recentCompletions filter_time all_completions = .ok recent ∧
      o.completion_count = recent.length ∧
      (o.passed = true ↔ 0 < recent.length) := by
  have hcount : ∀ (r a : List (List (String × JVal))),
      (if !r.isEmpty || a.isEmpty then r.length else 0) = r.length := by
    intro r a
    cases r with
    | nil => simp [List.isEmpty]
    | cons x xs => simp [List.isEmpty]
  unfold verify_completion_logged at ho
  cases hts : strptimeYmdHms timestamp_str with
  | none =>
    rw [hts] at ho
    exact Option.noConfusion ho
  | some filter_time =>
    rw [hts] at ho
    dsimp only at ho
    cases hrec : recentCompletions filter_time all_completions with
    | error u =>
      rw [hrec] at ho
      exact Option.noConfusion ho
    | ok recent =>
      rw [hrec] at ho
      dsimp only at ho
      refine ⟨filter_time, recent, rfl, hrec, ?_, ?_⟩
      · rw [← Option.some.inj ho]
        exact hcount recent all_completions
      · rw [← Option.some.inj ho]
        show decide _ = true ↔ _
        rw [decide_eq_true_eq, hcount recent all_completions]

/-- Witness for C8 at a concrete parseable window start and empty response,
whose reported outcome counts zero reconciled completions and fails. -/
theorem C8_completion_count_witness :
    ∃ filter_time recent,
      strptimeYmdHms "2024-01-15 10:30:00" = some filter_time ∧
      recentCompletions filter_time [] = .ok recent ∧
      (⟨true, 200, 0, 0, "2024-01-15 10:30:00", false⟩ :
        CompletionLoggedOutcome).completion_count = recent.length ∧
      ((⟨true, 200, 0, 0, "2024-01-15 10:30:00", false⟩ :
        CompletionLoggedOutcome).passed = true ↔ 0 < recent.length) :=
  C8_completion_count "2024-01-15 10:30:00" 200 []
    ⟨true, 200, 0, 0, "2024-01-15 10:30:00", false⟩ (by decide)

/-! ## Comparator classification lemmas -/

theorem classify_bothSkipped {b p : CategoryScore} (hb : b.skipped = true)
    (hp : p.skipped = true) : classifyCategory b p = .bothSkipped p.reason := by
  unfold classifyCategory
  rw [hb, hp]
  rfl

theorem classify_improvement {b p : CategoryScore}
    (hns : ¬(b.skipped = true ∧ p.skipped = true))
    (htb : truthyPassed b.passed = false) (htp : truthyPassed p.passed = true) :
    classifyCategory b p = .improvement b.points p.points (p.points - b.points) := by
  unfold classifyCategory
  have h1 : (b.skipped && p.skipped) = false := by
    cases hbs : b.skipped <;> cases hps : p.skipped <;> simp_all
  rw [h1, htb, htp]
  rfl

theorem classify_regression {b p : CategoryScore}
    (hns : ¬(b.skipped = true ∧ p.skipped = true))
    (htb : truthyPassed b.passed = true) (htp : truthyPassed p.passed = false) :
    classifyCategory b p = .regression b.points p.points (p.points - b.points) := by
  unfold classifyCategory
  have h1 : (b.skipped && p.skipped) = false := by
    cases hbs : b.skipped <;> cases hps : p.skipped <;> simp_all
  rw [h1, htb, htp]
  rfl

theorem classify_same {b p : CategoryScore}
    (hns : ¬(b.skipped = true ∧ p.skipped = true))
    (heq : truthyPassed b.passed = truthyPassed p.passed) :
    classifyCategory b p =
      .same (if truthyPassed b.passed then "passed" else "failed") b.points := by
  unfold classifyCategory
  have h1 : (b.skipped && p.skipped) = false := by
    cases hbs : b.skipped <;> cases hps : p.skipped <;> simp_all
  have h2 : (!truthyPassed b.passed && truthyPassed p.passed) = false := by
    cases h : truthyPassed b.passed <;> rw [h] at heq <;> simp [← heq]
  have h3 : (truthyPassed b.passed && !truthyPassed p.passed) = false := by
    cases h : truthyPassed b.passed <;> rw [h] at heq <;> simp [← heq, h]
  rw [h1, h2, h3]
  rfl

/-! ## C6: the comparator's precedence -/

/-- C6: for every category in the union of the two score documents'
categories, the comparator applies exactly the source's precedence: both
skipped goes to unchanged as `skipped` with the plugin side's reason;
otherwise a false-to-true flip of truthiness goes to improvements with
delta = plugin points minus baseline points; a true-to-false flip goes to
regressions with that delta; otherwise the category goes to unchanged with
the shared pass/fail status and the baseline's points. -/
theorem C6_compare_precedence (bcats pcats : List (String × CategoryScore)) (cat : String)
    (hmem : cat ∈ unionCategories bcats pcats) :
    ((catGet bcats cat).skipped = true ∧ (catGet pcats cat).skipped = true →
      UnchangedEntry.skippedCat cat (catGet pcats cat).reason ∈
        (compare_results bcats pcats).unchanged) ∧
    (¬((catGet bcats cat).skipped = true ∧ (catGet pcats cat).skipped = true) →
      truthyPassed (catGet bcats cat).passed = false →
      truthyPassed (catGet pcats cat).passed = true →
      (⟨cat, (catGet bcats cat).points, (catGet pcats cat).points,
        (catGet pcats cat).points - (catGet bcats cat).points⟩ : DeltaEntry) ∈
        (compare_results bcats pcats).improvements) ∧
    (¬((catGet bcats cat).skipped = true ∧ (catGet pcats cat).skipped = true) →
      truthyPassed (catGet bcats cat).passed = true →
      truthyPassed (catGet pcats cat).passed = false →
      (⟨cat, (catGet bcats cat).points, (catGet pcats cat).points,
        (catGet pcats cat).points - (catGet bcats cat).points⟩ : DeltaEntry) ∈
        (compare_results bcats pcats).regressions) ∧
    (¬((catGet bcats cat).skipped = true ∧ (catGet pcats cat).skipped = true) →
      truthyPassed (catGet bcats cat).passed = truthyPassed (catGet pcats cat).passed →
      UnchangedEntry.statusCat cat
          (if truthyPassed (catGet bcats cat).passed then "passed" else "failed")
          (catGet bcats cat).points ∈
        (compare_results bcats pcats).unchanged) := by
  refine ⟨?_, ?_, ?_, ?_⟩
  · rintro ⟨hb, hp⟩
    refine List.mem_filterMap.mpr ⟨cat, hmem, ?_⟩
    rw [classify_bothSkipped hb hp]
  · intro hns htb htp
    refine List.mem_filterMap.mpr ⟨cat, hmem, ?_⟩
    rw [classify_improvement hns htb htp]
  · intro hns htb htp
    refine List.mem_filterMap.mpr ⟨cat, hmem, ?_⟩
    rw [classify_regression hns htb htp]
  · intro hns heq
    refine List.mem_filterMap.mpr ⟨cat, hmem, ?_⟩
    rw [classify_same hns heq]

/-- Witness for C6 at concrete score maps whose one category flips from
failed to passed, landing in improvements with delta 10. -/
theorem C6_compare_precedence_witness :
    (⟨"x", 0, 10, 10⟩ : DeltaEntry) ∈
      (compare_results [("x", (⟨some false, false, none, 0, 10⟩ : CategoryScore))]
        [("x", (⟨some true, false, none, 10, 10⟩ : CategoryScore))]).improvements :=
  (C6_compare_precedence [("x", ⟨some false, false, none, 0, 10⟩)]
      [("x", ⟨some true, false, none, 10, 10⟩)] "x" (by decide)).2.1
    (by decide) rfl rfl

/-! ## C1: skipped outcomes in scoring and comparison -/

/-- C1 counterexample: a category skipped on the baseline side only, with
the treatment side passed, is placed in the improvements list (and not in
unchanged), contradicting the claim that a category skipped on either side
appears only in the unchanged list. -/
theorem C1_counterexample :
    (catGet [("x", (⟨none, true, some "creds missing", 0, 10⟩ : CategoryScore))] "x").skipped
      = true ∧
    (compare_results [("x", (⟨none, true, some "creds missing", 0, 10⟩ : CategoryScore))]
        [("x", (⟨some true, false, none, 10, 10⟩ : CategoryScore))]).improvements =
      [⟨"x", 0, 10, 10⟩] ∧
    (compare_results [("x", (⟨none, true, some "creds missing", 0, 10⟩ : CategoryScore))]
        [("x", (⟨some true, false, none, 10, 10⟩ : CategoryScore))]).unchanged = [] := by
  decide

/-- C1 amended: a skipped outcome always scores zero points, and a category
skipped on BOTH sides never reaches improvements or regressions; but a
category skipped on exactly one side is treated as not-passed on that side
and can land in improvements or regressions. -/
theorem C1_skipped_amended :
    (∀ (scoring : Rubric) (checks : List CheckRecord) (cat : String) (e : CategoryScore),
      slookup (calculate_score scoring checks).categories cat = some e →
      e.skipped = true → e.points = 0) ∧
    (∀ (bcats pcats : List (String × CategoryScore)) (cat : String),
      (catGet bcats cat).skipped = true → (catGet pcats cat).skipped = true →
      (∀ d ∈ (compare_results bcats pcats).improvements, d.category ≠ cat) ∧
      (∀ d ∈ (compare_results bcats pcats).regressions, d.category ≠ cat)) := by
  constructor
  · intro scoring checks cat e he hsk
    exact ((calculate_score_goodEntry scoring checks cat e he).1 hsk).2
  · intro bcats pcats cat hb hp
    constructor
    · intro d hd hdc
      rcases List.mem_filterMap.mp hd with ⟨c, hc, hf⟩
      cases hcl : classifyCategory (catGet bcats c) (catGet pcats c) with
      | improvement bb pp dd =>
        rw [hcl] at hf
        have hdcat : d.category = c := by rw [← Option.some.inj hf]
        rw [hdcat] at hdc
        subst hdc
        exact CatCompare.noConfusion ((classify_bothSkipped hb hp).symm.trans hcl)
      | bothSkipped r => rw [hcl] at hf; exact Option.noConfusion hf
      | regression bb pp dd => rw [hcl] at hf; exact Option.noConfusion hf
      | same st pts => rw [hcl] at hf; exact Option.noConfusion hf
    · intro d hd hdc
      rcases List.mem_filterMap.mp hd with ⟨c, hc, hf⟩
      cases hcl : classifyCategory (catGet bcats c) (catGet pcats c) with
      | regression bb pp dd =>
        rw [hcl] at hf
        have hdcat : d.category = c := by rw [← Option.some.inj hf]
        rw [hdcat] at hdc
        subst hdc
        exact CatCompare.noConfusion ((classify_bothSkipped hb hp).symm.trans hcl)
      | bothSkipped r => rw [hcl] at hf; exact Option.noConfusion hf
      | improvement bb pp dd => rw [hcl] at hf; exact Option.noConfusion hf
      | same st pts => rw [hcl] at hf; exact Option.noConfusion hf

/-- Witness for C1 amended: a skipped api_verify check scores zero points,
and a category skipped on both sides stays out of improvements. -/
theorem C1_skipped_amended_witness :
    ((⟨none, true, some "creds", (0 : Int), 10⟩ : CategoryScore).points = 0) ∧
    (∀ d ∈ (compare_results [("y", (⟨none, true, some "r", 0, 5⟩ : CategoryScore))]
        [("y", (⟨none, true, some "r2", 0, 5⟩ : CategoryScore))]).improvements,
      d.category ≠ "y") := by
  have h := C1_skipped_amended
  refine ⟨?_, ?_⟩
  · exact h.1 [("completion_logged", (10 : Int))]
      [⟨"api_verify", "search_completions", false, true, some "creds"⟩]
      "completion_logged" ⟨none, true, some "creds", 0, 10⟩ rfl rfl
  · exact (h.2 [("y", ⟨none, true, some "r", 0, 5⟩)]
      [("y", ⟨none, true, some "r2", 0, 5⟩)] "y" rfl rfl).1

/-! ## C3: the fixed lookup table and all-or-nothing awards -/

theorem applyCheck_unscored (scoring : Rubric) (acc : List (String × CategoryScore))
    (c : CheckRecord) (h : isScoredCheck scoring c = false) :
    applyCheck scoring acc c = acc := by
  unfold isScoredCheck at h
  cases htab : check_to_category c.check c.method with
  | none => simp only [applyCheck, htab]
  | some cat =>
    rw [htab] at h
    dsimp only at h
    cases hsl : slookup scoring cat with
    | none => simp only [applyCheck, htab, hsl]
    | some pts => rw [hsl] at h; simp at h

theorem scoreFold_filter (scoring : Rubric) :
    ∀ (checks : List CheckRecord) (acc : List (String × CategoryScore)),
      checks.foldl (applyCheck scoring) acc =
        (checks.filter (isScoredCheck scoring)).foldl (applyCheck scoring) acc := by
  intro checks
  induction checks with
  | nil => intro acc; rfl
  | cons c cs ih =>
    intro acc
    cases h : isScoredCheck scoring c with
    | true =>
      rw [List.foldl_cons, ih (applyCheck scoring acc c)]
      have hf : (c :: cs).filter (isScoredCheck scoring) =
          c :: cs.filter (isScoredCheck scoring) := by
        simp [List.filter_cons, h]
      rw [hf, List.foldl_cons]
    | false =>
      rw [List.foldl_cons, applyCheck_unscored scoring acc c h, ih acc]
      have hf : (c :: cs).filter (isScoredCheck scoring) =
          cs.filter (isScoredCheck scoring) := by
        simp [List.filter_cons, h]
      rw [hf]

theorem calculate_score_congr {scoring : Rubric} {l1 l2 : List CheckRecord}
    (h : scoreCategories scoring l1 = scoreCategories scoring l2) :
    calculate_score scoring l1 = calculate_score scoring l2 := by
  unfold calculate_score
  rw [h]

/-- C3: outcomes whose identity has no entry in the fixed lookup table, or
whose mapped category is absent from the rubric, contribute nothing to the
score (filtering them away leaves the whole `ScoreResult` unchanged), and
every non-skipped category entry is awarded exactly the full point value
iff it passed, never a partial amount. -/
theorem C3_scoring_table (scoring : Rubric) (checks : List CheckRecord) :
    calculate_score scoring checks =
      calculate_score scoring (checks.filter (isScoredCheck scoring)) ∧
    (∀ cat e, slookup (calculate_score scoring checks).categories cat = some e →
      e.skipped = false →
      ∃ b, e.passed = some b ∧ e.points = (if b then e.max_points else 0)) := by
  constructor
  · exact calculate_score_congr (scoreFold_filter scoring checks [])
  · intro cat e he hsk
    exact (calculate_score_goodEntry scoring checks cat e he).2 hsk

/-- Witness for C3: an unknown check type is filtered away without changing
the score, and the scored `file_contains` entry carries full points. -/
theorem C3_scoring_table_witness :
    calculate_score [("code_modified", (10 : Int))]
        [⟨"bogus", "", true, false, none⟩, ⟨"file_contains", "", true, false, none⟩] =
      calculate_score [("code_modified", (10 : Int))]
        ([⟨"bogus", "", true, false, none⟩,
          ⟨"file_contains", "", true, false, none⟩].filter
          (isScoredCheck [("code_modified", (10 : Int))])) ∧
    (∃ b, (⟨some true, false, none, (10 : Int), 10⟩ : CategoryScore).passed = some b ∧
      (⟨some true, false, none, (10 : Int), 10⟩ : CategoryScore).points =
        (if b then (⟨some true, false, none, (10 : Int), 10⟩ : CategoryScore).max_points
         else 0)) := by
  have h := C3_scoring_table [("code_modified", (10 : Int))]
    [⟨"bogus", "", true, false, none⟩, ⟨"file_contains", "", true, false, none⟩]
  exact ⟨h.1, h.2 "code_modified" ⟨some true, false, none, 10, 10⟩ rfl rfl⟩

/-! ## C10: a later outcome for the same category overwrites the earlier -/

theorem dictInsert_decompose {α : Type} (k : String) (l : List (String × α)) :
    ∃ A B, (∀ kv ∈ A, kv.1 ≠ k) ∧ ∀ v : α, dictInsert k v l = A ++ (k, v) :: B := by
  induction l with
  | nil => exact ⟨[], [], by simp, fun v => rfl⟩
  | cons hd tl ih =>
    obtain ⟨k0, v0⟩ := hd
    by_cases h0 : k0 = k
    · refine ⟨[], tl, by simp, fun v => ?_⟩
      rw [dictInsert_cons, if_pos h0]
      rfl
    · obtain ⟨A, B, hA, hins⟩ := ih
      refine ⟨(k0, v0) :: A, B, ?_, fun v => ?_⟩
      · intro kv hkv
        rcases List.mem_cons.mp hkv with h | h
        · rw [h]; exact h0
        · exact hA kv h
      · rw [dictInsert_cons, if_neg h0, hins v]
        rfl

theorem dictInsert_same_key {α : Type} (k : String) (w : α) :
    ∀ (A B : List (String × α)) (e : α), (∀ kv ∈ A, kv.1 ≠ k) →
      dictInsert k w (A ++ (k, e) :: B) = A ++ (k, w) :: B := by
  intro A
  induction A with
  | nil =>
    intro B e _
    rw [List.nil_append, dictInsert_cons, if_pos rfl, List.nil_append]
  | cons hd tlA ih =>
    intro B e hA
    obtain ⟨k0, v0⟩ := hd
    have hk0 : k0 ≠ k := hA (k0, v0) (List.mem_cons_self _ _)
    rw [List.cons_append, dictInsert_cons, if_neg hk0,
      ih B e (fun kv h => hA kv (List.mem_cons_of_mem _ h)), List.cons_append]

theorem dictInsert_other_key {α : Type} (k cat : String) (w : α) (hk : k ≠ cat) :
    ∀ (A : List (String × α)), (∀ kv ∈ A, kv.1 ≠ cat) →
      ∀ (B : List (String × α)),
      ∃ A' B', (∀ kv ∈ A', kv.1 ≠ cat) ∧
        ∀ e : α, dictInsert k w (A ++ (cat, e) :: B) = A' ++ (cat, e) :: B' := by
  intro A
  induction A with
  | nil =>
    intro _ B
    refine ⟨[], dictInsert k w B, by simp, fun e => ?_⟩
    rw [List.nil_append, dictInsert_cons, if_neg (fun h => hk h.symm)]
    rfl
  | cons hd tlA ih =>
    intro hA B
    obtain ⟨k0, v0⟩ := hd
    by_cases h0 : k0 = k
    · refine ⟨(k, w) :: tlA, B, ?_, fun e => ?_⟩
      · intro kv hkv
        rcases List.mem_cons.mp hkv with h | h
        · rw [h]; exact hk
        · exact hA kv (List.mem_cons_of_mem _ h)
      · rw [List.cons_append, dictInsert_cons, if_pos h0]
        rfl
    · obtain ⟨A', B', hA', hins⟩ := ih (fun kv h => hA kv (List.mem_cons_of_mem _ h)) B
      refine ⟨(k0, v0) :: A', B', ?_, fun e => ?_⟩
      · intro kv hkv
        rcases List.mem_cons.mp hkv with h | h
        · rw [h]; exact hA (k0, v0) (List.mem_cons_self _ _)
        · exact hA' kv h
      · rw [List.cons_append, dictInsert_cons, if_neg h0, hins e]
        rfl

theorem applyCheck_tab_none (scoring : Rubric) (acc : List (String × CategoryScore))
    (c : CheckRecord) (h : check_to_category c.check c.method = none) :
    applyCheck scoring acc c = acc := by
  simp only [applyCheck, h]

theorem applyCheck_rubric_none (scoring : Rubric) (acc : List (String × CategoryScore))
    (c : CheckRecord) {cat : String} (h : check_to_category c.check c.method = some cat)
    (hs : slookup scoring cat = none) : applyCheck scoring acc c = acc := by
  simp only [applyCheck, h, hs]

theorem applyCheck_scored (scoring : Rubric) (acc : List (String × CategoryScore))
    (c : CheckRecord) {cat : String} {pts : Int}
    (h : check_to_category c.check c.method = some cat)
    (hs : slookup scoring cat = some pts) :
    applyCheck scoring acc c = dictInsert cat (categoryEntry c pts) acc := by
  simp only [applyCheck, h, hs]

theorem scoreFold_overwrite (scoring : Rubric) (cat : String) {pts : Int}
    (hsc : slookup scoring cat = some pts) :
    ∀ (ys : List CheckRecord) (A B : List (String × CategoryScore))
      (e1 e2 : CategoryScore), (∀ kv ∈ A, kv.1 ≠ cat) →
      (∃ c2 ∈ ys, check_to_category c2.check c2.method = some cat) →
      ys.foldl (applyCheck scoring) (A ++ (cat, e1) :: B) =
        ys.foldl (applyCheck scoring) (A ++ (cat, e2) :: B) := by
  intro ys
  induction ys with
  | nil =>
    intro A B e1 e2 _ hc2
    rcases hc2 with ⟨c2, hmem, _⟩
    exact absurd hmem (List.not_mem_nil c2)
  | cons c cs ih =>
    intro A B e1 e2 hA hc2
    rw [List.foldl_cons, List.foldl_cons]
    cases htab : check_to_category c.check c.method with
    | none =>
      rw [applyCheck_tab_none scoring _ c htab, applyCheck_tab_none scoring _ c htab]
      refine ih A B e1 e2 hA ?_
      rcases hc2 with ⟨c2, hmem, hcat2⟩
      rcases List.mem_cons.mp hmem with h | h
      · rw [h, htab] at hcat2
        exact Option.noConfusion hcat2
      · exact ⟨c2, h, hcat2⟩
    | some cat' =>
      by_cases hcc : cat' = cat
      · subst hcc
        rw [applyCheck_scored scoring _ c htab hsc, applyCheck_scored scoring _ c htab hsc,
          dictInsert_same_key cat' (categoryEntry c pts) A B e1 hA,
          dictInsert_same_key cat' (categoryEntry c pts) A B e2 hA]
      · cases hsl : slookup scoring cat' with
        | none =>
          rw [applyCheck_rubric_none scoring _ c htab hsl,
            applyCheck_rubric_none scoring _ c htab hsl]
          refine ih A B e1 e2 hA ?_
          rcases hc2 with ⟨c2, hmem, hcat2⟩
          rcases List.mem_cons.mp hmem with h | h
          · rw [h, htab] at hcat2
            exact absurd (Option.some.inj hcat2) hcc
          · exact ⟨c2, h, hcat2⟩
        | some pts' =>
          obtain ⟨A', B', hA', hins⟩ :=
            dictInsert_other_key cat' cat (categoryEntry c pts') hcc A hA B
          rw [applyCheck_scored scoring _ c htab hsl,
            applyCheck_scored scoring _ c htab hsl, hins e1, hins e2]
          refine ih A' B' e1 e2 hA' ?_
          rcases hc2 with ⟨c2, hmem, hcat2⟩
          rcases List.mem_cons.mp hmem with h | h
          · rw [h, htab] at hcat2
            exact absurd (Option.some.inj hcat2) hcc
          · exact ⟨c2, h, hcat2⟩

/-- C10: when a later check in the list maps to the same scoring category,
the earlier check's entry contributes nothing to the score: replacing the
earlier check by any other check mapping to that category leaves the whole
`ScoreResult` (categories, total, max_total, percentage) unchanged. -/
theorem C10_duplicate_category (scoring : Rubric) (xs ys : List CheckRecord)
    (c1 c1' : CheckRecord) (cat : String)
    (h1 : check_to_category c1.check c1.method = some cat)
    (h1' : check_to_category c1'.check c1'.method = some cat)
    (h2 : ∃ c2 ∈ ys, check_to_category c2.check c2.method = some cat) :
    calculate_score scoring (xs ++ c1 :: ys) = calculate_score scoring (xs ++ c1' :: ys) := by
  apply calculate_score_congr
  unfold scoreCategories
  rw [List.foldl_append, List.foldl_append, List.foldl_cons, List.foldl_cons]
  cases hsc : slookup scoring cat with
  | none =>
    rw [applyCheck_rubric_none scoring _ c1 h1 hsc,
      applyCheck_rubric_none scoring _ c1' h1' hsc]
  | some pts =>
    rw [applyCheck_scored scoring _ c1 h1 hsc, applyCheck_scored scoring _ c1' h1' hsc]
    obtain ⟨A, B, hA, hins⟩ := dictInsert_decompose cat (xs.foldl (applyCheck scoring) [])
    rw [hins (categoryEntry c1 pts), hins (categoryEntry c1' pts)]
    exact scoreFold_overwrite scoring cat hsc ys A B _ _ hA h2

/-- Witness for C10: a failed and a passed `code_runs` check followed by the
same passed `code_runs` check score identically. -/
theorem C10_duplicate_category_witness :
    calculate_score [("code_runs", (5 : Int))]
        ([] ++ (⟨"code_runs", "", false, false, none⟩ : CheckRecord) ::
          [⟨"code_runs", "", true, false, none⟩]) =
      calculate_score [("code_runs", (5 : Int))]
        ([] ++ (⟨"code_runs", "", true, false, none⟩ : CheckRecord) ::
          [⟨"code_runs", "", true, false, none⟩]) :=
  C10_duplicate_category [("code_runs", (5 : Int))] []
    [⟨"code_runs", "", true, false, none⟩] ⟨"code_runs", "", false, false, none⟩
    ⟨"code_runs", "", true, false, none⟩ "code_runs" rfl rfl
    ⟨⟨"code_runs", "", true, false, none⟩, List.mem_singleton.mpr rfl, rfl⟩

end Freeplay
